import Mathlib

/-!
Shallow embedding of the two Solidity contracts of this repository:
`ReceiverContract` (the Ledger: per-account balance mapping, custodial pool,
deposits, internal transfers, value transfers, owner withdrawal) and
`ContractCaller` (the Relay: forwards value to the Ledger's deposit entry
point and counts forwarded calls).

Modelling choices:
- Addresses are `Nat`.
- `uint256` is `Nat` with checked arithmetic (`cadd`): Solidity ^0.8 reverts
  on overflow, modelled by the unnamed revert `Err.NativeRevert`.
- The balance mapping is an association list with default 0, as a Solidity
  `mapping(address => uint256)`.
- Each operation takes the pre-state plus the message context and returns
  `Except Err (state, trace)`; an `Except.error` is a full EVM revert, so the
  caller keeps the pre-state (made explicit by `commit`).
- External calls made by the contracts (the zero-value probe in `transferTo`,
  the value-bearing call in `transferWithValue`, the `transfer` in `withdraw`)
  are abstracted by an environment predicate `canReceive : address → Bool`
  saying whether a call to that address succeeds; the called party's code is
  not modelled.
- `payable` entry points credit `msg.value` to the contract's own balance
  (the custodial pool) before the body runs, as the EVM does.
- Require messages are mapped to the spec's error taxonomy:
  "No funds sent" / "Must send some ETH" → `InvalidAmount`,
  "Insufficient balance" → `InsufficientBalance`,
  "Contract has insufficient balance" → `InsufficientPool`,
  "Transfer failed" / "ETH transfer failed" → `TransferFailed`,
  "Only owner can withdraw" → `Unauthorized`.
  A revert with no custom reason (a failed `transfer`, an overflow panic) is
  `NativeRevert`.
-/

/-- 2^256, the modulus of uint256 arithmetic. -/
def W : Nat := 2 ^ 256

/-- Error taxonomy of the two contracts (spec §7) plus the unnamed revert. -/
inductive Err where
  | InvalidAmount
  | InsufficientBalance
  | InsufficientPool
  | TransferFailed
  | ForwardFailed
  | Unauthorized
  | NativeRevert
  deriving DecidableEq, Repr

/-- Checked uint256 addition: Solidity ^0.8 reverts on overflow. -/
def cadd (x y : Nat) : Except Err Nat :=
  if x + y < W then .ok (x + y) else .error .NativeRevert

/-- Events emitted by the two contracts. `InternalTransferRelay` is the
Relay's event named `InternalTransfer` in the source. -/
inductive Event where
  | FundsReceived (from_ : Nat) (amount : Nat)
  | BalanceUpdated (account : Nat) (newBalance : Nat)
  | InternalTransferExecuted (from_ : Nat) (to_ : Nat) (amount : Nat)
  | ContractCallMade (from_ : Nat) (to_ : Nat) (value : Nat)
  | InternalTransferRelay (from_ : Nat) (to_ : Nat) (amount : Nat)
  deriving DecidableEq, Repr

/-- One primitive step of an operation, in source order: a require check, a
balance-mapping mutation, an external call, or an event emission. -/
inductive Act where
  | ckBalance (sender : Nat) (amount : Nat)
  | debit (account : Nat) (amount : Nat)
  | credit (account : Nat) (amount : Nat)
  | probe (to_ : Nat) (value : Nat)
  | emitEv (e : Event)
  deriving DecidableEq, Repr

/-- The events contained in an action trace, in order. -/
def eventsOf (acts : List Act) : List Event :=
  acts.filterMap fun a =>
    match a with
    | .emitEv e => some e
    | _ => none

/-- Lookup in the balance mapping; absent keys read as 0, as a Solidity
mapping does. -/
def getBal (bs : List (Nat × Nat)) (a : Nat) : Nat :=
  match bs with
  | [] => 0
  | (b, w) :: t => if b = a then w else getBal t a

/-- Write to the balance mapping (first occurrence, or append). -/
def setBal (bs : List (Nat × Nat)) (a : Nat) (v : Nat) : List (Nat × Nat) :=
  match bs with
  | [] => [(a, v)]
  | (b, w) :: t => if b = a then (a, v) :: t else (b, w) :: setBal t a v

/-- Sum of all recorded per-account balances. -/
def sumBalances (bs : List (Nat × Nat)) : Nat :=
  (bs.map Prod.snd).sum

/-- Storage of `ReceiverContract` plus its own ETH balance (`pool`, the
custodial pool, i.e. `address(this).balance`). -/
structure LedgerState where
  owner : Nat
  totalReceived : Nat
  balances : List (Nat × Nat)
  pool : Nat
  deriving DecidableEq, Repr

/-- The Ledger right after `constructor()`: deployer becomes owner, no
deposits yet, the contract holds no value. -/
def initLedger (deployer : Nat) : LedgerState :=
  { owner := deployer, totalReceived := 0, balances := [], pool := 0 }

/-- Static environment: which addresses accept an incoming call, and the two
contracts' own addresses. -/
structure Env where
  canReceive : Nat → Bool
  ledgerAddr : Nat
  callerAddr : Nat

/-- Revert semantics: an `Except.error` outcome leaves the caller with the
pre-state and no emitted trace; `Except.ok` commits state and trace. -/
def commit {σ α : Type} (st : σ) (r : Except Err (σ × List α)) :
    σ × List α × Option Err :=
  match r with
  | .ok (st', xs) => (st', xs, none)
  | .error e => (st, [], some e)

/-- `receiveFunds()` (the deposit entry point), source lines 58-64:
`require(msg.value > 0)`, credit `balances[msg.sender]`, bump
`totalReceived`, emit `FundsReceived` then `BalanceUpdated`. Being payable,
`msg.value` joins the pool. -/
def receiveFunds (st : LedgerState) (sender msgValue : Nat) :
    Except Err (LedgerState × List Event) :=
  if msgValue > 0 then
    match cadd (getBal st.balances sender) msgValue with
    | .error e => .error e
    | .ok nb =>
      match cadd st.totalReceived msgValue with
      | .error e => .error e
      | .ok tr =>
        .ok ({ st with
                pool := st.pool + msgValue
                totalReceived := tr
                balances := setBal st.balances sender nb },
             [.FundsReceived sender msgValue, .BalanceUpdated sender nb])
  else
    .error .InvalidAmount

/-- The Ledger's `receive()` fallback, source lines 94-99: same bookkeeping
as `receiveFunds` but with no `msg.value > 0` require. -/
def receiveEth (st : LedgerState) (sender msgValue : Nat) :
    Except Err (LedgerState × List Event) :=
  match cadd (getBal st.balances sender) msgValue with
  | .error e => .error e
  | .ok nb =>
    match cadd st.totalReceived msgValue with
    | .error e => .error e
    | .ok tr =>
      .ok ({ st with
              pool := st.pool + msgValue
              totalReceived := tr
              balances := setBal st.balances sender nb },
           [.FundsReceived sender msgValue, .BalanceUpdated sender nb])

/-- `transferTo(recipient, amount)` (the internal transfer), source lines
66-77, with its full action trace in source order: the balance require, the
sender debit, the recipient credit, the zero-value probe call to the
recipient (`require(success, "Transfer failed")`), then the three emits
(`InternalTransferExecuted`, `BalanceUpdated` sender, `BalanceUpdated`
recipient), the two `BalanceUpdated` reading the post-mutation mapping. -/
def transferTo (env : Env) (st : LedgerState) (sender recipient amount : Nat) :
    Except Err (LedgerState × List Act) :=
  if getBal st.balances sender ≥ amount then
    let b1 := setBal st.balances sender (getBal st.balances sender - amount)
    match cadd (getBal b1 recipient) amount with
    | .error e => .error e
    | .ok nb =>
      let b2 := setBal b1 recipient nb
      if env.canReceive recipient then
        .ok ({ st with balances := b2 },
          [.ckBalance sender amount,
           .debit sender amount,
           .credit recipient amount,
           .probe recipient 0,
           .emitEv (.InternalTransferExecuted sender recipient amount),
           .emitEv (.BalanceUpdated sender (getBal b2 sender)),
           .emitEv (.BalanceUpdated recipient (getBal b2 recipient))])
      else
        .error .TransferFailed
  else
    .error .InsufficientBalance

/-- `transferWithValue(recipient, amount)`, source lines 79-84: payable, so
`msg.value` joins the pool first; requires the pool (value actually held) to
cover `amount`, sends `amount` by a raw call, requires success, emits
`InternalTransferExecuted(address(this), recipient, amount)`. The balance
mapping and `totalReceived` are untouched. -/
def transferWithValue (env : Env) (st : LedgerState)
    (recipient amount msgValue : Nat) :
    Except Err (LedgerState × List Event) :=
  if st.pool + msgValue ≥ amount then
    if env.canReceive recipient then
      .ok ({ st with pool := st.pool + msgValue - amount },
        [.InternalTransferExecuted env.ledgerAddr recipient amount])
    else
      .error .TransferFailed
  else
    .error .InsufficientPool

/-- `withdraw(amount)`, source lines 101-104: `require(msg.sender == owner)`,
then `payable(owner).transfer(amount)`. There is no pool-sufficiency require:
the `transfer` itself reverts with no custom reason when the contract's
balance is below `amount` (or the owner rejects the call), modelled as
`NativeRevert`. No event is emitted. -/
def withdraw (env : Env) (st : LedgerState) (sender amount : Nat) :
    Except Err (LedgerState × List Event) :=
  if sender = st.owner then
    if st.pool ≥ amount then
      if env.canReceive st.owner then
        .ok ({ st with pool := st.pool - amount }, [])
      else
        .error .NativeRevert
    else
      .error .NativeRevert
  else
    .error .Unauthorized

/-- `getBalance()`: the custodial pool size. -/
def getBalance (st : LedgerState) : Nat := st.pool

/-- `getUserBalance(user)`: one account's recorded balance. -/
def getUserBalance (st : LedgerState) (user : Nat) : Nat :=
  getBal st.balances user

/-- Storage of `ContractCaller` (the Relay). -/
structure CallerState where
  receiverContract : Nat
  totalTransfers : Nat
  deriving DecidableEq, Repr

/-- Combined state of the deployed pair. -/
structure Sys where
  caller : CallerState
  ledger : LedgerState
  deriving DecidableEq, Repr

/-- `callReceiverContract()`, source lines 22-27: `require(msg.value > 0)`,
forward the full `msg.value` to the Ledger's `receiveFunds` (the Ledger sees
the Relay's address as `msg.sender`; a revert there bubbles up and undoes
everything), then `totalTransfers++` and emit
`ContractCallMade(msg.sender, receiverContract, msg.value)`. -/
def callReceiverContract (env : Env) (sys : Sys) (sender msgValue : Nat) :
    Except Err (Sys × List Event) :=
  if msgValue > 0 then
    match receiveFunds sys.ledger env.callerAddr msgValue with
    | .error e => .error e
    | .ok (led', evs) =>
      match cadd sys.caller.totalTransfers 1 with
      | .error e => .error e
      | .ok t' =>
        .ok ({ caller := { sys.caller with totalTransfers := t' },
               ledger := led' },
             evs ++ [.ContractCallMade sender sys.caller.receiverContract msgValue])
  else
    .error .InvalidAmount

/-- A deposit operation for the deposit-only invariant: either the explicit
`receiveFunds` entry point or the implicit `receive()` path. -/
inductive DepositOp where
  | dep (sender : Nat) (amount : Nat)
  | recv (sender : Nat) (amount : Nat)
  deriving DecidableEq, Repr

/-- Run one deposit operation with revert semantics (a failed call leaves
the state untouched). -/
def depStep (st : LedgerState) (op : DepositOp) : LedgerState :=
  match op with
  | .dep s n => (commit st (receiveFunds st s n)).1
  | .recv s n => (commit st (receiveEth st s n)).1

/-- Run a whole sequence of deposit operations. -/
def depRun (st : LedgerState) (ops : List DepositOp) : LedgerState :=
  ops.foldl depStep st

/-! ### Concrete instances used by witnesses and counterexamples -/

/-- An environment in which every address accepts incoming calls; the two
contracts live at addresses 90 (Ledger) and 91 (Relay). -/
def envW : Env := { canReceive := fun _ => true, ledgerAddr := 90, callerAddr := 91 }

/-- An environment in which no address accepts incoming calls. -/
def envN : Env := { canReceive := fun _ => false, ledgerAddr := 90, callerAddr := 91 }

/-- A reachable ledger state: account 1 deposited 60 and account 2
deposited 40. -/
def stW : LedgerState :=
  { owner := 1, totalReceived := 100, balances := [(1, 60), (2, 40)], pool := 100 }

/-- The state `transferTo` produces when moving 40 from account 1 to
account 2 in `stW`. -/
def stW2 : LedgerState :=
  { owner := 1, totalReceived := 100, balances := [(1, 20), (2, 80)], pool := 100 }

/-- The action trace of that successful `transferTo`. -/
def actsW : List Act :=
  [.ckBalance 1 40,
   .debit 1 40,
   .credit 2 40,
   .probe 2 0,
   .emitEv (.InternalTransferExecuted 1 2 40),
   .emitEv (.BalanceUpdated 1 20),
   .emitEv (.BalanceUpdated 2 80)]

/-- Does this action perform the zero-value probe call? -/
def isProbeAct (a : Act) : Bool :=
  match a with
  | .probe _ _ => true
  | _ => false

/-- Does this action mutate the balance mapping? -/
def isMutAct (a : Act) : Bool :=
  match a with
  | .debit _ _ => true
  | .credit _ _ => true
  | _ => false

/-- A deployed caller/ledger pair for the relay witnesses: the Relay's
stored receiver address points at the Ledger. -/
def sysW : Sys :=
  { caller := { receiverContract := 90, totalTransfers := 4 }, ledger := stW }

/-! ### Balance-mapping lemmas -/

theorem getBal_setBal_self (bs : List (Nat × Nat)) (a v : Nat) :
    getBal (setBal bs a v) a = v := by
  induction bs with
  | nil => simp [setBal, getBal]
  | cons hd t ih =>
    obtain ⟨b, w⟩ := hd
    by_cases h : b = a
    · simp [setBal, getBal, h]
    · simp [setBal, getBal, h, ih]

theorem getBal_setBal_ne (bs : List (Nat × Nat)) (a v x : Nat) (h : x ≠ a) :
    getBal (setBal bs a v) x = getBal bs x := by
  have h' : a ≠ x := fun hh => h hh.symm
  induction bs with
  | nil => simp [setBal, getBal, h']
  | cons hd t ih =>
    obtain ⟨b, w⟩ := hd
    by_cases hb : b = a
    · subst hb
      simp [setBal, getBal, h']
    · simp only [setBal, if_neg hb, getBal]
      by_cases hx : b = x
      · simp [hx]
      · simp [hx, ih]

theorem sumBalances_setBal (bs : List (Nat × Nat)) (a v : Nat) :
    sumBalances (setBal bs a v) + getBal bs a = sumBalances bs + v := by
  induction bs with
  | nil => simp [setBal, getBal, sumBalances]
  | cons hd t ih =>
    obtain ⟨b, w⟩ := hd
    by_cases h : b = a
    · simp [setBal, getBal, h, sumBalances]
      omega
    · simp only [setBal, if_neg h, getBal, if_neg h, sumBalances, List.map_cons,
        List.sum_cons]
      simp only [sumBalances] at ih
      omega

theorem getBal_setBal_same_val (bs : List (Nat × Nat)) (a x : Nat) :
    getBal (setBal bs a (getBal bs a)) x = getBal bs x := by
  by_cases h : x = a
  · subst h
    exact getBal_setBal_self bs x (getBal bs x)
  · exact getBal_setBal_ne bs a (getBal bs a) x h

/-! ### Arithmetic helper -/

theorem cadd_ok (x y z : Nat) (h : cadd x y = .ok z) : z = x + y := by
  unfold cadd at h
  split at h
  · cases h
    rfl
  · cases h

/-! ### Deposit-only invariant (claim C1) -/

theorem depStep_sum_le_pool (st : LedgerState) (op : DepositOp)
    (h : sumBalances st.balances ≤ st.pool) :
    sumBalances (depStep st op).balances ≤ (depStep st op).pool := by
  cases op with
  | dep s n =>
    simp only [depStep]
    by_cases hn : n > 0
    · cases hnb : cadd (getBal st.balances s) n with
      | error e => simp [receiveFunds, hn, hnb, commit, h]
      | ok nb =>
        cases htr : cadd st.totalReceived n with
        | error e => simp [receiveFunds, hn, hnb, htr, commit, h]
        | ok tr =>
          have hnb' := cadd_ok _ _ _ hnb
          have hsum := sumBalances_setBal st.balances s nb
          simp only [receiveFunds, if_pos hn, hnb, htr, commit]
          omega
    · simp [receiveFunds, hn, commit, h]
  | recv s n =>
    simp only [depStep]
    cases hnb : cadd (getBal st.balances s) n with
    | error e => simp [receiveEth, hnb, commit, h]
    | ok nb =>
      cases htr : cadd st.totalReceived n with
      | error e => simp [receiveEth, hnb, htr, commit, h]
      | ok tr =>
        have hnb' := cadd_ok _ _ _ hnb
        have hsum := sumBalances_setBal st.balances s nb
        simp only [receiveEth, hnb, htr, commit]
        omega

theorem depRun_sum_le_pool (st : LedgerState) (ops : List DepositOp)
    (h : sumBalances st.balances ≤ st.pool) :
    sumBalances (depRun st ops).balances ≤ (depRun st ops).pool := by
  induction ops generalizing st with
  | nil => simpa [depRun] using h
  | cons op t ih =>
    simpa [depRun, List.foldl_cons] using
      ih (depStep st op) (depStep_sum_le_pool st op h)

/-- Claim C1: for every sequence of deposit operations (the explicit
`receiveFunds` entry point and the implicit `receive()` path) executed from
the initial state, the sum of all per-account ledger balances never exceeds
the Ledger's custodial pool. -/
theorem deposits_sum_le_pool (deployer : Nat) (ops : List DepositOp) :
    sumBalances (depRun (initLedger deployer) ops).balances ≤
      (depRun (initLedger deployer) ops).pool := by
  exact depRun_sum_le_pool _ ops (by simp [initLedger, sumBalances])

/-! ### Deposit functional spec (claim C2) -/

/-- Claim C2: for every sender, `receiveFunds` (deposit) with amount 0 fails
with `InvalidAmount` leaving the state untouched; with amount `n > 0` (under
the uint256 no-overflow side conditions of Solidity ^0.8) it credits the
sender's ledger balance by exactly `n`, leaves every other account alone,
increases `totalReceived` and the custodial pool by exactly `n`, and emits
`FundsReceived(sender, n)` followed by `BalanceUpdated(sender, new balance)`. -/
theorem deposit_spec (st : LedgerState) (s n : Nat)
    (hb : getBal st.balances s + n < W) (ht : st.totalReceived + n < W) :
    commit st (receiveFunds st s 0) = (st, [], some .InvalidAmount) ∧
    (0 < n →
      ∃ st', receiveFunds st s n = .ok (st',
          [.FundsReceived s n,
           .BalanceUpdated s (getBal st.balances s + n)]) ∧
        getBal st'.balances s = getBal st.balances s + n ∧
        (∀ x, x ≠ s → getBal st'.balances x = getBal st.balances x) ∧
        st'.totalReceived = st.totalReceived + n ∧
        st'.pool = st.pool + n ∧
        st'.owner = st.owner) := by
  constructor
  · simp [receiveFunds, commit]
  · intro hn
    have hnb : cadd (getBal st.balances s) n = .ok (getBal st.balances s + n) := by
      simp [cadd, hb]
    have htr : cadd st.totalReceived n = .ok (st.totalReceived + n) := by
      simp [cadd, ht]
    refine ⟨{ st with
                pool := st.pool + n
                totalReceived := st.totalReceived + n
                balances := setBal st.balances s (getBal st.balances s + n) },
            ?_, ?_, ?_, ?_, ?_, ?_⟩
    · simp [receiveFunds, hn, hnb, htr]
    · exact getBal_setBal_self st.balances s (getBal st.balances s + n)
    · intro x hx
      exact getBal_setBal_ne st.balances s (getBal st.balances s + n) x hx
    · rfl
    · rfl
    · rfl

/-- Witness for claim C2 at a concrete input: depositing 125 from account 7
into the fresh Ledger. -/
theorem deposit_spec_witness :
    commit (initLedger 1) (receiveFunds (initLedger 1) 7 0) =
      (initLedger 1, [], some Err.InvalidAmount) ∧
    (∃ st', receiveFunds (initLedger 1) 7 125 =
        .ok (st', [Event.FundsReceived 7 125, Event.BalanceUpdated 7 125]) ∧
      getBal st'.balances 7 = 125 ∧ st'.totalReceived = 125 ∧ st'.pool = 125) := by
  have h := deposit_spec (initLedger 1) 7 125
    (by norm_num [initLedger, getBal, W]) (by norm_num [initLedger, W])
  obtain ⟨st', h1, h2, h3, h4, h5, h6⟩ := h.2 (by norm_num)
  exact ⟨h.1, st',
    by simpa [initLedger, getBal] using h1,
    by simpa [initLedger, getBal] using h2,
    by simpa [initLedger] using h4,
    by simpa [initLedger] using h5⟩

/-! ### Internal transfer (claims C3, C4, C5) -/

theorem transferTo_ok_char (env : Env) (st : LedgerState)
    (sender recipient amount : Nat) (st' : LedgerState) (acts : List Act)
    (h : transferTo env st sender recipient amount = .ok (st', acts)) :
    amount ≤ getBal st.balances sender ∧
    env.canReceive recipient = true ∧
    st'.balances =
      setBal (setBal st.balances sender (getBal st.balances sender - amount))
        recipient
        (getBal (setBal st.balances sender (getBal st.balances sender - amount))
            recipient + amount) ∧
    st'.owner = st.owner ∧
    st'.totalReceived = st.totalReceived ∧
    st'.pool = st.pool ∧
    acts =
      [.ckBalance sender amount,
       .debit sender amount,
       .credit recipient amount,
       .probe recipient 0,
       .emitEv (.InternalTransferExecuted sender recipient amount),
       .emitEv (.BalanceUpdated sender (getBal st'.balances sender)),
       .emitEv (.BalanceUpdated recipient (getBal st'.balances recipient))] := by
  simp only [transferTo] at h
  split at h
  · rename_i hge
    split at h
    · cases h
    · rename_i nb hnb
      have hnb' := cadd_ok _ _ _ hnb
      subst hnb'
      split at h
      · rename_i hcr
        cases h
        refine ⟨hge, hcr, rfl, rfl, rfl, rfl, rfl⟩
      · cases h
  · cases h

/-- Claim C3: a successful `transferTo(a, b, amt)` with `balance[a] ≥ amt`
preserves `balance[a] + balance[b]` (for distinct accounts it debits the
sender by exactly `amt` and credits the recipient by exactly `amt`) and
emits exactly one `InternalTransferExecuted` and exactly two
`BalanceUpdated` events, the sender's before the recipient's. -/
theorem internalTransfer_conservation (env : Env) (st : LedgerState)
    (sender recipient amount : Nat) (st' : LedgerState) (acts : List Act)
    (hge : amount ≤ getBal st.balances sender)
    (h : transferTo env st sender recipient amount = .ok (st', acts)) :
    getBal st'.balances sender + getBal st'.balances recipient =
      getBal st.balances sender + getBal st.balances recipient ∧
    (sender ≠ recipient →
      getBal st'.balances sender = getBal st.balances sender - amount ∧
      getBal st'.balances recipient = getBal st.balances recipient + amount) ∧
    eventsOf acts =
      [.InternalTransferExecuted sender recipient amount,
       .BalanceUpdated sender (getBal st'.balances sender),
       .BalanceUpdated recipient (getBal st'.balances recipient)] := by
  obtain ⟨-, -, hbal, -, -, -, hacts⟩ :=
    transferTo_ok_char env st sender recipient amount st' acts h
  have hev : eventsOf acts =
      [.InternalTransferExecuted sender recipient amount,
       .BalanceUpdated sender (getBal st'.balances sender),
       .BalanceUpdated recipient (getBal st'.balances recipient)] := by
    rw [hacts]
    simp [eventsOf]
  by_cases hsr : sender = recipient
  · subst hsr
    have hgb : getBal st'.balances sender = getBal st.balances sender := by
      rw [hbal, getBal_setBal_self, getBal_setBal_self]
      omega
    exact ⟨by omega, fun hne => absurd rfl hne, hev⟩
  · have e1 : getBal (setBal st.balances sender
        (getBal st.balances sender - amount)) sender
        = getBal st.balances sender - amount := getBal_setBal_self _ _ _
    have e2 : getBal (setBal st.balances sender
        (getBal st.balances sender - amount)) recipient
        = getBal st.balances recipient :=
      getBal_setBal_ne _ _ _ _ (fun hh => hsr hh.symm)
    have hs' : getBal st'.balances sender
        = getBal st.balances sender - amount := by
      rw [hbal, getBal_setBal_ne _ _ _ _ hsr, e1]
    have hr' : getBal st'.balances recipient
        = getBal st.balances recipient + amount := by
      rw [hbal, getBal_setBal_self, e2]
    exact ⟨by omega, fun _ => ⟨hs', hr'⟩, hev⟩

/-- Witness for claim C3: moving 40 from account 1 (holding 60) to
account 2 (holding 40) in `stW`. -/
theorem internalTransfer_conservation_witness :
    getBal stW2.balances 1 + getBal stW2.balances 2 =
      getBal stW.balances 1 + getBal stW.balances 2 ∧
    (1 ≠ 2 →
      getBal stW2.balances 1 = getBal stW.balances 1 - 40 ∧
      getBal stW2.balances 2 = getBal stW.balances 2 + 40) ∧
    eventsOf actsW =
      [.InternalTransferExecuted 1 2 40,
       .BalanceUpdated 1 (getBal stW2.balances 1),
       .BalanceUpdated 2 (getBal stW2.balances 2)] :=
  internalTransfer_conservation envW stW 1 2 40 stW2 actsW (by decide) (by rfl)

/-- Claim C4: `transferTo(a, b, amt)` with `balance[a] < amt` fails with
`InsufficientBalance`, leaving all state unchanged and emitting nothing. -/
theorem internalTransfer_insufficient (env : Env) (st : LedgerState)
    (sender recipient amount : Nat)
    (hlt : getBal st.balances sender < amount) :
    commit st (transferTo env st sender recipient amount) =
      (st, [], some .InsufficientBalance) := by
  have hn : ¬ (getBal st.balances sender ≥ amount) := by omega
  simp [transferTo, hn, commit]

/-- Witness for claim C4: account 2 (holding 40) cannot send 100. -/
theorem internalTransfer_insufficient_witness :
    commit stW (transferTo envW stW 2 1 100) =
      (stW, [], some Err.InsufficientBalance) :=
  internalTransfer_insufficient envW stW 2 1 100 (by decide)

/-- Counterexample to claim C5 as stated: in the successful concrete run
`transferTo envW stW 1 2 40` (producing trace `actsW`), the zero-value probe
call does NOT precede the balance mutation — the debit and credit come
first, as in source lines 68-72. -/
theorem probe_before_mutation_cex :
    transferTo envW stW 1 2 40 = .ok (stW2, actsW) ∧
    ¬ (actsW.findIdx isProbeAct < actsW.findIdx isMutAct) :=
  ⟨by rfl, by decide⟩

/-- Claim C5 (amended): in `transferTo` the step order is balance check,
then the balance mutations (debit, credit), then the zero-value probe call,
then the three emits — the probe comes after the mutation, not before — and
a failed probe aborts the whole operation with `TransferFailed`, leaving
the state (both balances included) unchanged and emitting nothing. -/
theorem internalTransfer_step_order (env : Env) (st : LedgerState)
    (sender recipient amount : Nat) :
    (∀ st' acts, transferTo env st sender recipient amount = .ok (st', acts) →
      acts =
        [.ckBalance sender amount,
         .debit sender amount,
         .credit recipient amount,
         .probe recipient 0,
         .emitEv (.InternalTransferExecuted sender recipient amount),
         .emitEv (.BalanceUpdated sender (getBal st'.balances sender)),
         .emitEv (.BalanceUpdated recipient (getBal st'.balances recipient))] ∧
      acts.findIdx isMutAct < acts.findIdx isProbeAct) ∧
    (env.canReceive recipient = false →
     amount ≤ getBal st.balances sender →
     getBal (setBal st.balances sender (getBal st.balances sender - amount))
         recipient + amount < W →
      commit st (transferTo env st sender recipient amount) =
        (st, [], some .TransferFailed)) := by
  constructor
  · intro st' acts h
    obtain ⟨-, -, -, -, -, -, hacts⟩ :=
      transferTo_ok_char env st sender recipient amount st' acts h
    refine ⟨hacts, ?_⟩
    rw [hacts]
    simp [List.findIdx_cons, isMutAct, isProbeAct]
  · intro hfail hge hov
    have hnb : cadd (getBal (setBal st.balances sender
        (getBal st.balances sender - amount)) recipient) amount =
        .ok (getBal (setBal st.balances sender
          (getBal st.balances sender - amount)) recipient + amount) := by
      simp [cadd, hov]
    simp [transferTo, hge, hnb, hfail, commit]

/-- Witness for claim C5 (amended): the successful run `transferTo envW stW
1 2 40` has the check-mutate-probe-emit trace, and the same transfer against
`envN` (where account 2 rejects calls) fails with `TransferFailed` leaving
`stW` unchanged. -/
theorem internalTransfer_step_order_witness :
    (actsW =
      [.ckBalance 1 40,
       .debit 1 40,
       .credit 2 40,
       .probe 2 0,
       .emitEv (.InternalTransferExecuted 1 2 40),
       .emitEv (.BalanceUpdated 1 (getBal stW2.balances 1)),
       .emitEv (.BalanceUpdated 2 (getBal stW2.balances 2))] ∧
      actsW.findIdx isMutAct < actsW.findIdx isProbeAct) ∧
    commit stW (transferTo envN stW 1 2 40) =
      (stW, [], some Err.TransferFailed) :=
  ⟨(internalTransfer_step_order envW stW 1 2 40).1 stW2 actsW (by rfl),
   (internalTransfer_step_order envN stW 1 2 40).2 (by decide) (by decide)
     (by norm_num [stW, getBal, setBal, W])⟩

/-! ### Implicit receive path vs deposit (claim C6) -/

/-- Counterexample to claim C6 as stated: at amount 0 the two paths are not
identical — the deposit entry point reverts with `InvalidAmount` while the
implicit `receive()` path succeeds (and even emits `FundsReceived(7, 0)`). -/
theorem receive_zero_cex :
    receiveFunds stW 7 0 = .error .InvalidAmount ∧
    receiveEth stW 7 0 =
      .ok ({ owner := 1, totalReceived := 100,
             balances := [(1, 60), (2, 40), (7, 0)], pool := 100 },
           [.FundsReceived 7 0, .BalanceUpdated 7 0]) :=
  ⟨by rfl, by rfl⟩

/-- Claim C6 (amended): for every sender and every amount n > 0 the implicit
receive path behaves identically to deposit (same outcome, same state, same
events); at amount 0 they diverge: deposit fails with `InvalidAmount`, while
receive succeeds, leaving every account balance, `totalReceived` and the
pool unchanged, and emits `FundsReceived(sender, 0)` and
`BalanceUpdated(sender, unchanged balance)`. -/
theorem receive_matches_deposit (st : LedgerState) (s n : Nat) (hn : 0 < n) :
    receiveEth st s n = receiveFunds st s n ∧
    receiveFunds st s 0 = .error .InvalidAmount ∧
    (getBal st.balances s < W → st.totalReceived < W →
      ∃ st', receiveEth st s 0 =
          .ok (st', [.FundsReceived s 0, .BalanceUpdated s (getBal st.balances s)]) ∧
        (∀ x, getBal st'.balances x = getBal st.balances x) ∧
        st'.totalReceived = st.totalReceived ∧
        st'.pool = st.pool ∧
        st'.owner = st.owner) := by
  refine ⟨?_, by simp [receiveFunds], ?_⟩
  · simp only [receiveFunds, receiveEth, if_pos hn]
  · intro hg htr0
    have h1 : cadd (getBal st.balances s) 0 = .ok (getBal st.balances s) := by
      simp [cadd, hg]
    have h2 : cadd st.totalReceived 0 = .ok st.totalReceived := by
      simp [cadd, htr0]
    refine ⟨{ st with balances := setBal st.balances s (getBal st.balances s) },
            ?_, ?_, rfl, rfl, rfl⟩
    · simp [receiveEth, h1, h2]
    · intro x
      exact getBal_setBal_same_val st.balances s x

/-- Witness for claim C6 (amended) at sender 7 with amounts 5 and 0 in
`stW`. -/
theorem receive_matches_deposit_witness :
    receiveEth stW 7 5 = receiveFunds stW 7 5 ∧
    receiveFunds stW 7 0 = Except.error Err.InvalidAmount ∧
    (∃ st', receiveEth stW 7 0 =
        .ok (st', [.FundsReceived 7 0, .BalanceUpdated 7 (getBal stW.balances 7)]) ∧
      (∀ x, getBal st'.balances x = getBal stW.balances x) ∧
      st'.totalReceived = stW.totalReceived ∧
      st'.pool = stW.pool ∧
      st'.owner = stW.owner) := by
  have h := receive_matches_deposit stW 7 5 (by decide)
  exact ⟨h.1, h.2.1, h.2.2 (by decide) (by decide)⟩

/-! ### Withdrawal authorization (claims C7, C10) -/

/-- Claim C7: `withdraw(amount)` succeeds only when the caller is the owner
fixed at construction; any other caller always fails with `Unauthorized`
and the entire state (pool, balance mapping, total-received, owner) is
unchanged. -/
theorem withdraw_auth (env : Env) (st : LedgerState) (sender amount : Nat) :
    (sender ≠ st.owner →
      commit st (withdraw env st sender amount) =
        (st, [], some .Unauthorized)) ∧
    (∀ r, withdraw env st sender amount = .ok r → sender = st.owner) := by
  constructor
  · intro hne
    simp [withdraw, hne, commit]
  · intro r h
    by_cases hs : sender = st.owner
    · exact hs
    · simp [withdraw, hs] at h

/-- Witness for claim C7: account 2 is not the owner of `stW` (account 1)
and its withdraw attempt is rejected wholesale. -/
theorem withdraw_auth_witness :
    commit stW (withdraw envW stW 2 50) = (stW, [], some Err.Unauthorized) :=
  (withdraw_auth envW stW 2 50).1 (by decide)

/-- Claim C10: when the owner calls `withdraw(amount)` with `amount`
strictly greater than the custodial pool, the outgoing `transfer` cannot be
performed: the call reverts with the bare (unnamed) revert `NativeRevert`
— in particular not with the named `InsufficientPool` error, since
`withdraw` has no explicit pool-sufficiency require — and the entire state
is unchanged. -/
theorem withdraw_over_pool (env : Env) (st : LedgerState) (amount : Nat)
    (hover : st.pool < amount) :
    commit st (withdraw env st st.owner amount) =
      (st, [], some .NativeRevert) ∧
    (Err.NativeRevert ≠ Err.InsufficientPool ∧
     Err.NativeRevert ≠ Err.Unauthorized ∧
     Err.NativeRevert ≠ Err.InsufficientBalance) := by
  refine ⟨?_, by decide, by decide, by decide⟩
  have hn : ¬ (st.pool ≥ amount) := by omega
  simp [withdraw, hn, commit]

/-- Witness for claim C10: the owner of `stW` (pool 100) asking for 150. -/
theorem withdraw_over_pool_witness :
    commit stW (withdraw envW stW stW.owner 150) =
      (stW, [], some Err.NativeRevert) ∧
    (Err.NativeRevert ≠ Err.InsufficientPool ∧
     Err.NativeRevert ≠ Err.Unauthorized ∧
     Err.NativeRevert ≠ Err.InsufficientBalance) :=
  withdraw_over_pool envW stW 150 (by decide)

/-! ### Value-bearing administrative transfer (claim C9) -/

/-- Claim C9: `transferWithValue(recipient, amount)` fails with
`InsufficientPool` when the custodial pool (the value actually held during
the call, i.e. prior pool plus `msg.value`) is smaller than `amount`, fails
with `TransferFailed` when the value-bearing call to the recipient does not
succeed, and on success sends `amount` of value out of the pool and emits
`InternalTransferExecuted` with the Ledger itself as sender, leaving the
per-account balance mapping, `totalReceived` and the owner unchanged. -/
theorem transferWithValue_spec (env : Env) (st : LedgerState)
    (recipient amount v : Nat) :
    (st.pool + v < amount →
      commit st (transferWithValue env st recipient amount v) =
        (st, [], some .InsufficientPool)) ∧
    (amount ≤ st.pool + v → env.canReceive recipient = false →
      commit st (transferWithValue env st recipient amount v) =
        (st, [], some .TransferFailed)) ∧
    (amount ≤ st.pool + v → env.canReceive recipient = true →
      ∃ st', transferWithValue env st recipient amount v =
          .ok (st', [.InternalTransferExecuted env.ledgerAddr recipient amount]) ∧
        st'.pool + amount = st.pool + v ∧
        st'.balances = st.balances ∧
        st'.totalReceived = st.totalReceived ∧
        st'.owner = st.owner) := by
  refine ⟨?_, ?_, ?_⟩
  · intro hlt
    have hn : ¬ (st.pool + v ≥ amount) := by omega
    simp [transferWithValue, hn, commit]
  · intro hge hfail
    simp [transferWithValue, hge, hfail, commit]
  · intro hge hcr
    refine ⟨{ st with pool := st.pool + v - amount }, ?_, ?_, rfl, rfl, rfl⟩
    · simp [transferWithValue, hge, hcr]
    · show st.pool + v - amount + amount = st.pool + v
      omega

/-- Witness for claim C9: sending 30 out of `stW` (pool 100) to address 5
with no incoming value. -/
theorem transferWithValue_spec_witness :
    ∃ st', transferWithValue envW stW 5 30 0 =
        .ok (st', [.InternalTransferExecuted envW.ledgerAddr 5 30]) ∧
      st'.pool + 30 = stW.pool + 0 ∧
      st'.balances = stW.balances ∧
      st'.totalReceived = stW.totalReceived ∧
      st'.owner = stW.owner :=
  (transferWithValue_spec envW stW 5 30 0).2.2 (by decide) (by decide)

/-! ### Relay forwarding (claim C8) -/

/-- Claim C8: `callReceiverContract` with amount 0 fails with
`InvalidAmount` before any forwarding and changes no state; with amount
`v > 0` (under the uint256 no-overflow side conditions) it forwards `v` to
the Ledger's deposit entry point so that the Ledger's pool and the Relay's
own ledger-mapping balance (the Ledger sees the Relay's address as sender,
not the original driver) each increase by exactly `v`, the Relay's transfer
counter increments by exactly 1, and `ContractCallMade(original sender,
Ledger address, v)` is emitted after the Ledger's own deposit events; if the
forwarded call fails, the whole operation reverts with no partial state. -/
theorem callReceiver_spec (env : Env) (sys : Sys) (sender v : Nat)
    (hrc : sys.caller.receiverContract = env.ledgerAddr) :
    (commit sys (callReceiverContract env sys sender 0) =
      (sys, [], some .InvalidAmount)) ∧
    (0 < v →
     getBal sys.ledger.balances env.callerAddr + v < W →
     sys.ledger.totalReceived + v < W →
     sys.caller.totalTransfers + 1 < W →
      ∃ sys', callReceiverContract env sys sender v = .ok (sys',
          [.FundsReceived env.callerAddr v,
           .BalanceUpdated env.callerAddr
             (getBal sys.ledger.balances env.callerAddr + v),
           .ContractCallMade sender env.ledgerAddr v]) ∧
        sys'.ledger.pool = sys.ledger.pool + v ∧
        getBal sys'.ledger.balances env.callerAddr =
          getBal sys.ledger.balances env.callerAddr + v ∧
        sys'.caller.totalTransfers = sys.caller.totalTransfers + 1 ∧
        sys'.caller.receiverContract = sys.caller.receiverContract ∧
        sys'.ledger.totalReceived = sys.ledger.totalReceived + v ∧
        sys'.ledger.owner = sys.ledger.owner) ∧
    (∀ e, receiveFunds sys.ledger env.callerAddr v = .error e →
      commit sys (callReceiverContract env sys sender v) =
        (sys, [], some e)) := by
  refine ⟨by simp [callReceiverContract, commit], ?_, ?_⟩
  · intro hv h1 h2 h3
    have hnb : cadd (getBal sys.ledger.balances env.callerAddr) v =
        .ok (getBal sys.ledger.balances env.callerAddr + v) := by
      simp [cadd, h1]
    have htr : cadd sys.ledger.totalReceived v =
        .ok (sys.ledger.totalReceived + v) := by
      simp [cadd, h2]
    have ht1 : cadd sys.caller.totalTransfers 1 =
        .ok (sys.caller.totalTransfers + 1) := by
      simp [cadd, h3]
    have hrf : receiveFunds sys.ledger env.callerAddr v =
        .ok ({ sys.ledger with
                pool := sys.ledger.pool + v
                totalReceived := sys.ledger.totalReceived + v
                balances := setBal sys.ledger.balances env.callerAddr
                  (getBal sys.ledger.balances env.callerAddr + v) },
             [.FundsReceived env.callerAddr v,
              .BalanceUpdated env.callerAddr
                (getBal sys.ledger.balances env.callerAddr + v)]) := by
      simp [receiveFunds, hv, hnb, htr]
    refine ⟨{ caller := { sys.caller with
                totalTransfers := sys.caller.totalTransfers + 1 }
              ledger := { sys.ledger with
                pool := sys.ledger.pool + v
                totalReceived := sys.ledger.totalReceived + v
                balances := setBal sys.ledger.balances env.callerAddr
                  (getBal sys.ledger.balances env.callerAddr + v) } },
            ?_, rfl, ?_, rfl, rfl, rfl, rfl⟩
    · simp [callReceiverContract, hv, hrf, ht1, hrc]
    · exact getBal_setBal_self _ _ _
  · intro e he
    by_cases hv : 0 < v
    · simp [callReceiverContract, hv, he, commit]
    · have hv0 : v = 0 := by omega
      subst hv0
      simp [receiveFunds] at he
      simp [callReceiverContract, commit, ← he]

/-- Witness for claim C8: forwarding 50 through the deployed pair `sysW`
(Relay at 91, Ledger at 90) on behalf of driver account 7. -/
theorem callReceiver_spec_witness :
    commit sysW (callReceiverContract envW sysW 7 0) =
      (sysW, [], some Err.InvalidAmount) ∧
    (∃ sys', callReceiverContract envW sysW 7 50 = .ok (sys',
        [.FundsReceived envW.callerAddr 50,
         .BalanceUpdated envW.callerAddr
           (getBal sysW.ledger.balances envW.callerAddr + 50),
         .ContractCallMade 7 envW.ledgerAddr 50]) ∧
      sys'.ledger.pool = sysW.ledger.pool + 50 ∧
      getBal sys'.ledger.balances envW.callerAddr =
        getBal sysW.ledger.balances envW.callerAddr + 50 ∧
      sys'.caller.totalTransfers = sysW.caller.totalTransfers + 1 ∧
      sys'.caller.receiverContract = sysW.caller.receiverContract ∧
      sys'.ledger.totalReceived = sysW.ledger.totalReceived + 50 ∧
      sys'.ledger.owner = sysW.ledger.owner) := by
  have h := callReceiver_spec envW sysW 7 50 (by decide)
  exact ⟨h.1, h.2.1 (by decide) (by decide) (by decide) (by decide)⟩
